import Mathlib

/-!
Verification development for the revenue-analysis core of the
`data-analysis-agent` repository (`app/data_loader.py`, `app/analysis.py`,
`app/anomaly_detector.py`, `app/config.py`, `app/main_app.py`).

The Python code works over pandas DataFrames of float64 values.  The shallow
embedding below represents:

* a float64 value as `PFloat` — a rational number, one of the two infinities
  (which `pd.to_numeric` can produce, e.g. from the text `inf` or from an
  overflowing literal), or NaN (which the coercions use for unparseable
  cells and IEEE multiplication produces for `inf * 0`);
* a raw spreadsheet/CSV cell by how the two pandas coercions used in
  `load_transactions` see it: `asDate` is the outcome of
  `pd.to_datetime(cell, errors="coerce")` at day resolution (`none` = NaT),
  `asNum` the outcome of `pd.to_numeric(cell, errors="coerce")`
  (`PFloat.nan` = unparseable), and `asText` the cell as a grouping key
  (`none` = missing/NaN cell, which pandas `groupby`/`nunique` drop);
* the isolation-forest model of scikit-learn as an abstract deterministic
  function of (seed, number of estimators, feature column, contamination),
  together with the input validation `fit` performs (contamination range,
  non-empty sample); the analysis code pins seed 42 and 200 estimators;
* ambient nondeterminism sources (wall clock, OS entropy) as an explicit
  `Env` record threaded through the pipeline, so that independence from
  them can be stated; the code never reads either.
-/

/-- IEEE-style float64 value as used by the pandas pipeline: a finite
rational, an infinity, or NaN. -/
inductive PFloat where
  | val (q : ℚ)
  | inf
  | negInf
  | nan
deriving DecidableEq, Repr

namespace PFloat

/-- Complement of `pandas.notna` / `numpy.isnan`: `true` exactly on NaN. -/
def isNa : PFloat → Bool
  | nan => true
  | _ => false

/-- Embedding of `numpy.isfinite`: `true` exactly on finite values. -/
def isFinite : PFloat → Bool
  | val _ => true
  | _ => false

/-- IEEE float64 addition on the embedded values (finite-range overflow is
not modelled; `inf + (-inf) = nan`, NaN absorbs). -/
def add : PFloat → PFloat → PFloat
  | nan, _ => nan
  | _, nan => nan
  | inf, negInf => nan
  | negInf, inf => nan
  | inf, _ => inf
  | _, inf => inf
  | negInf, _ => negInf
  | _, negInf => negInf
  | val a, val b => val (a + b)

/-- IEEE float64 multiplication on the embedded values
(`inf * 0 = nan`, NaN absorbs, sign rules for infinities). -/
def mul : PFloat → PFloat → PFloat
  | nan, _ => nan
  | _, nan => nan
  | inf, inf => inf
  | inf, negInf => negInf
  | negInf, inf => negInf
  | negInf, negInf => inf
  | inf, val b => if 0 < b then inf else if b < 0 then negInf else nan
  | val a, inf => if 0 < a then inf else if a < 0 then negInf else nan
  | negInf, val b => if 0 < b then negInf else if b < 0 then inf else nan
  | val a, negInf => if 0 < a then negInf else if a < 0 then inf else nan
  | val a, val b => val (a * b)

/-- Float division by a positive integer count, as in
`total_revenue / num_transactions` (only ever evaluated with a
non-zero count in the source). -/
def divNat : PFloat → Nat → PFloat
  | val a, n => val (a / (n : ℚ))
  | inf, _ => inf
  | negInf, _ => negInf
  | nan, _ => nan

instance : Add PFloat := ⟨PFloat.add⟩

instance : Zero PFloat := ⟨PFloat.val 0⟩

theorem add_def (a b : PFloat) : a + b = PFloat.add a b := rfl

theorem zero_def : (0 : PFloat) = PFloat.val 0 := rfl

theorem pf_add_comm (a b : PFloat) : a + b = b + a := by
  cases a <;> cases b <;> simp [add_def, add] <;> ring

theorem pf_add_assoc (a b c : PFloat) : a + b + c = a + (b + c) := by
  cases a <;> cases b <;> cases c <;> simp [add_def, add] <;> ring

theorem pf_zero_add (a : PFloat) : 0 + a = a := by
  cases a <;> simp [zero_def, add_def, add]

theorem pf_add_zero (a : PFloat) : a + 0 = a := by
  cases a <;> simp [zero_def, add_def, add]

instance : AddCommMonoid PFloat where
  add_assoc := pf_add_assoc
  zero_add := pf_zero_add
  add_zero := pf_add_zero
  add_comm := pf_add_comm
  nsmul := nsmulRec

end PFloat

deriving instance DecidableEq for Except

set_option allowUnsafeReducibility true

attribute [semireducible] Rat.mul Rat.add Rat.sub Rat.inv

/-- A raw spreadsheet/CSV cell, represented by how the pandas coercions used
in `load_transactions` interpret it (see module docstring). -/
structure Cell where
  asDate : Option Int := none
  asNum : PFloat := PFloat.nan
  asText : Option String := none
deriving DecidableEq, Repr

/-- A raw tabular blob as returned by `_read_any_file`: a list of column
names and rows of cells aligned with those names. -/
structure RawTable where
  columns : List String
  rows : List (List Cell)
deriving DecidableEq, Repr

/-- Cell of `row` under column name `c`, per the column list `cols`
(missing positions read as an empty cell; `load_transactions` only looks
up columns whose presence it has already established). -/
def RawTable.cellAt (cols : List String) (row : List Cell) (c : String) : Cell :=
  match cols.indexOf? c with
  | none => {}
  | some i => (row.get? i).getD {}

/-- Column-name constants of `config.py`. -/
def INVOICE_DATE_COL : String := "InvoiceDate"

/-- Constant `config.QUANTITY_COL`. -/
def QUANTITY_COL : String := "Quantity"

/-- Constant `config.UNIT_PRICE_COL`. -/
def UNIT_PRICE_COL : String := "UnitPrice"

/-- Constant `config.COUNTRY_COL`. -/
def COUNTRY_COL : String := "Country"

/-- Constant `config.CUSTOMER_ID_COL`. -/
def CUSTOMER_ID_COL : String := "CustomerID"

/-- Constant `config.DESCRIPTION_COL`. -/
def DESCRIPTION_COL : String := "Description"

/-- Row of the canonical transaction table produced by `load_transactions`:
the pandas DataFrame columns this pipeline reads.  `invoiceDate` is the
coerced datetime column (day resolution, `none` = NaT); the optional
dimension columns hold `none` when the column is absent from the upload or
the cell is NaN. -/
structure CanonRow where
  invoiceDate : Option Int
  quantity : PFloat
  unitPrice : PFloat
  revenue : PFloat
  country : Option String
  customerID : Option String
  description : Option String
deriving DecidableEq, Repr

/-- Canonical transaction table: which optional columns the upload carried,
plus the cleaned rows. -/
structure CanonTable where
  hasCountry : Bool
  hasCustomerID : Bool
  hasDescription : Bool
  rows : List CanonRow
deriving DecidableEq, Repr

/-- Errors `load_transactions` can raise: the explicit
`ValueError(f"Expected column InvoiceDate not found in file.")` of the
schema check, and the `KeyError` pandas `dropna(subset=...)` raises when a
subset label is missing — both carry the missing column name(s). -/
inductive LoadErr where
  | valueError (col : String)
  | keyError (cols : List String)
deriving DecidableEq, Repr

/-- Whether the human-readable message of the error names column `c`
(the `ValueError` text interpolates its column; the pandas `KeyError`
message lists the missing subset labels). -/
def LoadErr.mentions : LoadErr → String → Bool
  | .valueError col, c => col == c
  | .keyError cols, c => cols.contains c

/-- The rendered message, as `main` would display it. -/
def LoadErr.message : LoadErr → String
  | .valueError col => "Expected column \x27" ++ col ++ "\x27 not found in file."
  | .keyError cols => "KeyError: " ++ String.intercalate ", " cols ++ " not found in axis"

/-- Per-row cleaning of `load_transactions`: drop the row when the
timestamp fails `pd.to_datetime` coercion, when quantity or unit price
fails `pd.to_numeric` coercion (`dropna(subset=[QUANTITY_COL, UNIT_PRICE_COL])`),
or when `Revenue = Quantity * UnitPrice` is NaN (`df[df["Revenue"].notna()]`). -/
def cleanRow (cols : List String) (row : List Cell) : Option CanonRow :=
  match (RawTable.cellAt cols row INVOICE_DATE_COL).asDate with
  | none => none
  | some d =>
    if (RawTable.cellAt cols row QUANTITY_COL).asNum.isNa
        || (RawTable.cellAt cols row UNIT_PRICE_COL).asNum.isNa then none
    else if ((RawTable.cellAt cols row QUANTITY_COL).asNum.mul
        (RawTable.cellAt cols row UNIT_PRICE_COL).asNum).isNa then none
    else
      some { invoiceDate := some d,
             quantity := (RawTable.cellAt cols row QUANTITY_COL).asNum,
             unitPrice := (RawTable.cellAt cols row UNIT_PRICE_COL).asNum,
             revenue := (RawTable.cellAt cols row QUANTITY_COL).asNum.mul
               (RawTable.cellAt cols row UNIT_PRICE_COL).asNum,
             country := if cols.contains COUNTRY_COL then
                 (RawTable.cellAt cols row COUNTRY_COL).asText else none,
             customerID := if cols.contains CUSTOMER_ID_COL then
                 (RawTable.cellAt cols row CUSTOMER_ID_COL).asText else none,
             description := if cols.contains DESCRIPTION_COL then
                 (RawTable.cellAt cols row DESCRIPTION_COL).asText else none }

/-- The required numeric columns absent from the upload: the subset labels
whose absence makes `dropna(subset=[QUANTITY_COL, UNIT_PRICE_COL])` raise
a `KeyError`. -/
def missingNumericCols (raw : RawTable) : List String :=
  [QUANTITY_COL, UNIT_PRICE_COL].filter (fun c => ¬ raw.columns.contains c)

/-- Embedding of `data_loader.load_transactions`: checks that `InvoiceDate` is present
(explicit `ValueError` otherwise), coerces the date column and drops NaT
rows, coerces the numeric columns and drops NaN rows — where pandas
`dropna(subset=[QUANTITY_COL, UNIT_PRICE_COL])` raises a `KeyError` naming
whichever of the two columns is absent — computes `Revenue` and keeps only
rows where it is not NaN.  Row survival is per-row, so the sequence of
column-wise passes of the source equals one `filterMap` over the rows. -/
def load_transactions (raw : RawTable) : Except LoadErr CanonTable :=
  if ¬ raw.columns.contains INVOICE_DATE_COL then
    .error (.valueError INVOICE_DATE_COL)
  else if missingNumericCols raw ≠ [] then .error (.keyError (missingNumericCols raw))
  else
    .ok { hasCountry := raw.columns.contains COUNTRY_COL,
          hasCustomerID := raw.columns.contains CUSTOMER_ID_COL,
          hasDescription := raw.columns.contains DESCRIPTION_COL,
          rows := raw.rows.filterMap (cleanRow raw.columns) }

/-- Insertion of `x` into `l` before the first element `y` with `le x y` —
helper for the sorts performed by pandas (`groupby` key sort,
`sort_values`). -/
def insertLe {α : Type} (le : α → α → Bool) (x : α) : List α → List α
  | [] => [x]
  | y :: ys => if le x y then x :: y :: ys else y :: insertLe le x ys

/-- Comparison sort used to model the pandas sorts.  For a total order it
computes the same list as any comparison sort, so the choice of algorithm
is immaterial to the embedding. -/
def sortLe {α : Type} (le : α → α → Bool) : List α → List α
  | [] => []
  | x :: xs => insertLe le x (sortLe le xs)

/-- First day (as day number, 1970-01-01 = day 0) of the Monday-start week
containing day `d` — the semantics of
`pd.to_period("W").start_time` on the timestamp column (`"W"` is the
Monday–Sunday week).  Day 0 was a Thursday, so the Monday-based weekday of
`d` is `(d + 3) % 7`. -/
def weekStart (d : Int) : Int := d - (d + 3) % 7

/-- Row of the DataFrame returned by `aggregate_weekly_revenue`:
`{"Date": week start, "Revenue": summed revenue}`. -/
structure WeeklyPoint where
  date : Int
  revenue : PFloat
deriving DecidableEq, Repr

/-- The `(Week, Revenue)` pairs of `df.assign(Week=...)`, restricted to the two
columns the groupby reads.  Rows with a NaT timestamp carry no week key and
are dropped by pandas `groupby`. -/
def weekKeyed (t : CanonTable) : List (Int × PFloat) :=
  t.rows.filterMap (fun r => r.invoiceDate.map (fun d => (weekStart d, r.revenue)))

/-- Group sum for one week key: pandas `groupby(...)["Revenue"].sum()`
skips NaN entries and returns 0.0 for an empty selection. -/
def weekSum (keyed : List (Int × PFloat)) (k : Int) : PFloat :=
  (((keyed.filter (fun p => p.1 == k)).map Prod.snd).filter (fun x => !x.isNa)).sum

/-- Embedding of `analysis.aggregate_weekly_revenue`: assign each row the start of its
Monday-start week, group by that key (pandas sorts group keys ascending),
sum `Revenue` per group, and return `(Date, Revenue)` rows. -/
def aggregate_weekly_revenue (t : CanonTable) : List WeeklyPoint :=
  (sortLe (fun a b => a ≤ b) ((weekKeyed t).map Prod.fst).dedup).map
    (fun k => { date := k, revenue := weekSum (weekKeyed t) k })

/-- The KPI dictionary returned by `analysis.compute_core_kpis`; `none`
models Python `None`. -/
structure KPISet where
  total_revenue : PFloat
  num_transactions : Nat
  avg_order_value : PFloat
  top_country : Option String
  top_country_revenue : Option PFloat
  top_product : Option String
  top_product_revenue : Option PFloat
  unique_customers : Option Nat
deriving DecidableEq, Repr

/-- Embedding of `df.groupby(col)["Revenue"].sum()` for an optional text column: keys
are the distinct non-null values, sorted ascending (pandas default
`sort=True`); each group sums the non-NaN revenues of its rows. -/
def groupRevenueSums (keyOf : CanonRow → Option String) (rows : List CanonRow) :
    List (String × PFloat) :=
  let keys := sortLe (fun a b => a ≤ b) (rows.filterMap keyOf).dedup
  keys.map (fun k =>
    (k, (((rows.filter (fun r => keyOf r == some k)).map (fun r => r.revenue)).filter
          (fun x => !x.isNa)).sum))

/-- Descending-by-revenue comparison of `sort_values(ascending=False)`,
with NaN values placed last (pandas `na_position="last"`). -/
def revDescLe (a b : PFloat) : Bool :=
  match a, b with
  | _, .nan => true
  | .nan, _ => false
  | .inf, _ => true
  | _, .inf => false
  | .val x, .val y => y ≤ x
  | .val _, .negInf => true
  | .negInf, .val _ => false
  | .negInf, .negInf => true

/-- Top entry of a grouped-and-descending-sorted revenue series:
`series.sort_values(ascending=False)` then `.index[0]` / `.iloc[0]`.
`none` models the `IndexError` pandas raises on an empty series. -/
def topOfGroups (groups : List (String × PFloat)) : Option (String × PFloat) :=
  (sortLe (fun p q => revDescLe p.2 q.2) groups).head?

/-- The Python truthiness conversion of
`float(x) if x else None` applied to a revenue value: `0.0` is falsy, so a
zero top revenue is reported as `None` exactly like an absent column. -/
def floatIfTruthy (x : PFloat) : Option PFloat :=
  if x = PFloat.val 0 then none else some x

/-- One optional top-by-revenue block of `compute_core_kpis`: when the
column is present, group, sort descending and take the first entry, where
`index[0]` on an empty grouped series raises an `IndexError`; when the
column is absent both derived fields stay `None`. -/
def optionalTopBlock (present : Bool) (keyOf : CanonRow → Option String)
    (rows : List CanonRow) : Except String (Option (String × PFloat)) :=
  if present then
    match topOfGroups (groupRevenueSums keyOf rows) with
    | none => .error "IndexError: index 0 is out of bounds for axis 0 with size 0"
    | some kv => .ok (some kv)
  else .ok none

/-- Embedding of `analysis.compute_core_kpis`.  `df["Revenue"].sum()` and `.count()`
skip NaN; the average guards against a zero count with
`if num_transactions else 0.0`; each optional block runs only when its
column is present, and `index[0]` on an empty grouped series raises an
`IndexError`, modelled as the `Except` error (the country block runs before
the product block, matching the order in the source). -/
def compute_core_kpis (t : CanonTable) : Except String KPISet :=
  let revs := (t.rows.map (fun r => r.revenue)).filter (fun x => !x.isNa)
  let total := revs.sum
  let count := revs.length
  let avg := if count = 0 then PFloat.val 0 else total.divNat count
  match optionalTopBlock t.hasCountry (fun r => r.country) t.rows with
  | .error m => .error m
  | .ok countryTop =>
    match optionalTopBlock t.hasDescription (fun r => r.description) t.rows with
    | .error m => .error m
    | .ok productTop =>
      .ok { total_revenue := total,
            num_transactions := count,
            avg_order_value := avg,
            top_country := countryTop.map Prod.fst,
            top_country_revenue := countryTop.bind (fun kv => floatIfTruthy kv.2),
            top_product := productTop.map Prod.fst,
            top_product_revenue := productTop.bind (fun kv => floatIfTruthy kv.2),
            unique_customers :=
              if t.hasCustomerID then
                some (t.rows.filterMap (fun r => r.customerID)).dedup.length
              else none }

/-- Ambient nondeterminism sources available to a process: the wall clock
and the OS entropy pool scikit-learn would consult if `random_state` were
left unset.  The analysis code never reads either; threading the record
through lets that be stated as a theorem. -/
structure Env where
  systemTime : Nat
  entropy : Nat
deriving DecidableEq, Repr

/-- Seed actually used by a scikit-learn estimator: the `random_state`
argument when supplied, fresh OS entropy otherwise.
`detect_revenue_anomalies_iforest` always supplies `42`. -/
def isolationForestSeed (random_state : Option Nat) (env : Env) : Nat :=
  match random_state with
  | some s => s
  | none => env.entropy

/-- Abstract deterministic interface of a fitted
`sklearn.ensemble.IsolationForest`: given seed, `n_estimators`, the
one-column feature matrix and the contamination rate, `predict` yields one
is-anomaly flag per sample (`true` = the -1 class) and `score` one
`decision_function` value per sample.  The concrete partitioning algorithm
is a property of the library, not of this repository, so it is kept
abstract; every theorem below holds for each instance. -/
structure IForestModel where
  predict : Nat → Nat → List PFloat → ℚ → List Bool
  score : Nat → Nat → List PFloat → ℚ → List ℚ
  predict_length : ∀ s n X c, (predict s n X c).length = X.length
  score_length : ∀ s n X c, (score s n X c).length = X.length

/-- Row of the anomaly DataFrame: `["Date", "Revenue", "anomaly_score"]`. -/
structure AnomalyRecord where
  date : Int
  revenue : PFloat
  anomaly_score : ℚ
deriving DecidableEq, Repr

/-- The `df.copy().sort_values("Date")` step opening
`detect_revenue_anomalies_iforest`. -/
def sortedWeekly (weekly : List WeeklyPoint) : List WeeklyPoint :=
  sortLe (fun a b => a.date ≤ b.date) weekly

/-- Second half of `detect_revenue_anomalies_iforest`: the
anomaly rows kept from the sorted frame, its model flags and its model
scores. -/
def anomalyRows (df : List WeeklyPoint) (flags : List Bool) (scores : List ℚ) :
    List AnomalyRecord :=
  (df.zip (flags.zip scores)).filterMap
    (fun pr => if pr.2.1 then
        some { date := pr.1.date, revenue := pr.1.revenue, anomaly_score := pr.2.2 }
      else none)

/-- Embedding of `anomaly_detector.detect_revenue_anomalies_iforest`: sort
the weekly frame by `Date`, take the `Revenue` column as the feature
matrix, fit an `IsolationForest(contamination=contamination,
random_state=42, n_estimators=200)` and keep the rows predicted `-1`.  The
`Except` errors are the `ValueError`s scikit-learn raises while fitting: a
contamination outside `(0, 0.5]`, and an empty sample (`check_array`
requires at least one sample). -/
def detect_revenue_anomalies_iforest (M : IForestModel) (env : Env)
    (weekly : List WeeklyPoint) (contamination : ℚ) :
    Except String (List AnomalyRecord) :=
  if ¬ (0 < contamination ∧ contamination ≤ 1/2) then
    .error "ValueError: contamination must be in the interval (0, 0.5]"
  else if ((sortedWeekly weekly).map (fun p => p.revenue)).isEmpty then
    .error "ValueError: Found array with 0 sample(s) while a minimum of 1 is required"
  else
    .ok (anomalyRows (sortedWeekly weekly)
      (M.predict (isolationForestSeed (some 42) env) 200
        ((sortedWeekly weekly).map (fun p => p.revenue)) contamination)
      (M.score (isolationForestSeed (some 42) env) 200
        ((sortedWeekly weekly).map (fun p => p.revenue)) contamination))

/-- Embedding of `nlargest(10)` over a grouped revenue series: descending sort, first
ten entries. -/
def topTen (groups : List (String × PFloat)) : List (String × PFloat) :=
  (sortLe (fun p q => revDescLe p.2 q.2) groups).take 10

/-- The summary dictionary of `analysis.build_summary`. -/
structure Summary where
  core_kpis : KPISet
  recent_trend : List WeeklyPoint
  anomalies : List AnomalyRecord
  top_products_df : List (String × PFloat)
  top_countries_df : List (String × PFloat)
deriving DecidableEq, Repr

/-- Embedding of `analysis.build_summary`: weekly aggregation, KPIs, last eight weekly
rows (`weekly.tail(8)`), anomaly detection, and the two top-10 breakdowns
(an empty DataFrame when the column is absent).  An exception from any step
propagates to the caller. -/
def build_summary (M : IForestModel) (env : Env) (t : CanonTable)
    (contamination : ℚ) : Except String Summary :=
  let weekly := aggregate_weekly_revenue t
  do
    let kpis ← compute_core_kpis t
    let anomalies ← detect_revenue_anomalies_iforest M env weekly contamination
    pure { core_kpis := kpis,
           recent_trend := weekly.drop (weekly.length - 8),
           anomalies := anomalies,
           top_products_df :=
             if t.hasDescription then topTen (groupRevenueSums (fun r => r.description) t.rows)
             else [],
           top_countries_df :=
             if t.hasCountry then topTen (groupRevenueSums (fun r => r.country) t.rows)
             else [] }

/-- Cleaning followed by summary building: the data-processing part of
`main`, also the composite the testable properties quantify over. -/
def run_pipeline (M : IForestModel) (env : Env) (raw : RawTable)
    (contamination : ℚ) : Except String Summary :=
  match load_transactions raw with
  | .error e => .error e.message
  | .ok t => build_summary M env t contamination

/-- Outcome of one run of `main_app.main`, one constructor per exit path
of the source: no upload yet, the `df.empty` early return, the
`except Exception` handler, or a rendered dashboard. -/
inductive MainResult where
  | noFile (info : String)
  | emptyData (msg : String)
  | processingError (msg : String)
  | rendered (s : Summary)
deriving DecidableEq, Repr

/-- The data-loading and analysis control flow of `main_app.main`: without
an upload it only shows an info box; a raised error from loading or summary
building is caught by the `try/except` and shown via `st.error`; an empty
cleaned table is reported with its own message *before*
`aggregate_weekly_revenue` and `build_summary` run. -/
def main_run (M : IForestModel) (env : Env) (uploaded : Option RawTable)
    (contamination : ℚ) : MainResult :=
  match uploaded with
  | none => .noFile "Please upload a file using the sidebar to begin analysis."
  | some raw =>
    match load_transactions raw with
    | .error e =>
      .processingError ("An error occurred during data processing: " ++ e.message)
    | .ok t =>
      if t.rows.isEmpty then
        .emptyData "File loaded, but no data was found or parsed."
      else
        match build_summary M env t contamination with
        | .error m => .processingError ("An error occurred during data processing: " ++ m)
        | .ok s => .rendered s

/-- A concrete instance of the abstract isolation-forest interface, used
only to instantiate universally quantified statements at a computable
model: it flags nothing and scores every sample `0`. -/
def trivialForest : IForestModel where
  predict := fun _ _ X _ => X.map (fun _ => false)
  score := fun _ _ X _ => X.map (fun _ => 0)
  predict_length := fun _ _ X _ => List.length_map X _
  score_length := fun _ _ X _ => List.length_map X _

/-- A concrete ambient environment. -/
def env0 : Env := { systemTime := 0, entropy := 0 }

/-- Upload whose single row has a parseable date, a `Quantity` cell that
`pd.to_numeric` coerces to `inf` (as it does for the text `inf` or an
overflowing numeric literal), and a finite `UnitPrice`. -/
def rawInfQty : RawTable :=
  { columns := [INVOICE_DATE_COL, QUANTITY_COL, UNIT_PRICE_COL],
    rows := [[{ asDate := some 19000 }, { asNum := PFloat.inf }, { asNum := PFloat.val 2 }]] }

/-- Upload with one valid row and one row whose date fails to parse. -/
def rawValid : RawTable :=
  { columns := [INVOICE_DATE_COL, QUANTITY_COL, UNIT_PRICE_COL, COUNTRY_COL],
    rows := [[{ asDate := some 19723 }, { asNum := PFloat.val 3 },
              { asNum := PFloat.val (5/2) }, { asText := some "France" }],
             [{ asDate := none }, { asNum := PFloat.val 1 },
              { asNum := PFloat.val 1 }, { asText := some "Spain" }]] }

/-- Upload missing the required `Quantity` column. -/
def rawNoQuantity : RawTable :=
  { columns := [INVOICE_DATE_COL, UNIT_PRICE_COL], rows := [] }

/-- Upload whose rows are all invalid: cleaning leaves zero rows. -/
def rawAllJunk : RawTable :=
  { columns := [INVOICE_DATE_COL, QUANTITY_COL, UNIT_PRICE_COL],
    rows := [[{ asDate := none }, { asNum := PFloat.val 1 }, { asNum := PFloat.val 1 }]] }

/-- A small canonical table with one transaction (no optional columns). -/
def tOneRow : CanonTable :=
  { hasCountry := false, hasCustomerID := false, hasDescription := false,
    rows := [{ invoiceDate := some 4, quantity := PFloat.val 2,
               unitPrice := PFloat.val 3, revenue := PFloat.val 6,
               country := none, customerID := none, description := none }] }

/-- A canonical table with two transactions in different weeks. -/
def tTwoRows : CanonTable :=
  { hasCountry := false, hasCustomerID := false, hasDescription := false,
    rows := [{ invoiceDate := some 4, quantity := PFloat.val 2,
               unitPrice := PFloat.val 3, revenue := PFloat.val 6,
               country := none, customerID := none, description := none },
             { invoiceDate := some 11, quantity := PFloat.val 1,
               unitPrice := PFloat.val 7, revenue := PFloat.val 7,
               country := none, customerID := none, description := none }] }

/-- Table `tTwoRows` with its rows in the opposite order. -/
def tTwoRowsSwapped : CanonTable :=
  { hasCountry := false, hasCustomerID := false, hasDescription := false,
    rows := [{ invoiceDate := some 11, quantity := PFloat.val 1,
               unitPrice := PFloat.val 7, revenue := PFloat.val 7,
               country := none, customerID := none, description := none },
             { invoiceDate := some 4, quantity := PFloat.val 2,
               unitPrice := PFloat.val 3, revenue := PFloat.val 6,
               country := none, customerID := none, description := none }] }

/-- Canonical table whose `Country` column is present but whose single
transaction has zero revenue. -/
def tZeroRevenue : CanonTable :=
  { hasCountry := true, hasCustomerID := false, hasDescription := false,
    rows := [{ invoiceDate := some 0, quantity := PFloat.val 0,
               unitPrice := PFloat.val 1, revenue := PFloat.val 0,
               country := some "United Kingdom", customerID := none, description := none }] }

/-- The same transaction in a table without the `Country` column. -/
def tZeroRevenueNoCountry : CanonTable :=
  { hasCountry := false, hasCustomerID := false, hasDescription := false,
    rows := [{ invoiceDate := some 0, quantity := PFloat.val 0,
               unitPrice := PFloat.val 1, revenue := PFloat.val 0,
               country := none, customerID := none, description := none }] }

/-- The KPI set computed from `tOneRow`. -/
def kOneRow : KPISet :=
  { total_revenue := PFloat.val 6, num_transactions := 1, avg_order_value := PFloat.val 6,
    top_country := none, top_country_revenue := none, top_product := none,
    top_product_revenue := none, unique_customers := none }

/-- The KPI set computed from `tZeroRevenue`: the country column is present
and grouped, yet the zero top revenue is reported as `None`. -/
def kZeroRevenue : KPISet :=
  { total_revenue := PFloat.val 0, num_transactions := 1, avg_order_value := PFloat.val 0,
    top_country := some "United Kingdom", top_country_revenue := none, top_product := none,
    top_product_revenue := none, unique_customers := none }

/-- The KPI set computed from `tZeroRevenueNoCountry`. -/
def kZeroRevenueNoCountry : KPISet :=
  { total_revenue := PFloat.val 0, num_transactions := 1, avg_order_value := PFloat.val 0,
    top_country := none, top_country_revenue := none, top_product := none,
    top_product_revenue := none, unique_customers := none }

/-- A one-point weekly series. -/
def weeklyOne : List WeeklyPoint := [{ date := 0, revenue := PFloat.val 5 }]

/-- The canonical-table invariant established by the cleaner: a parsed
timestamp, non-NaN numerics, and a non-NaN revenue equal to their
product. -/
def IsCanonical (t : CanonTable) : Prop :=
  ∀ r ∈ t.rows, r.invoiceDate.isSome = true ∧ r.quantity.isNa = false ∧
    r.unitPrice.isNa = false ∧ r.revenue = r.quantity.mul r.unitPrice ∧
    r.revenue.isNa = false

instance (t : CanonTable) : Decidable (IsCanonical t) := by
  unfold IsCanonical; infer_instance

theorem insertLe_perm {α : Type} (le : α → α → Bool) (x : α) (l : List α) :
    List.Perm (insertLe le x l) (x :: l) := by
  induction l with
  | nil => exact List.Perm.refl _
  | cons y ys ih =>
    unfold insertLe
    cases h : le x y with
    | true => simp
    | false =>
      simp only [Bool.false_eq_true, if_false]
      exact (ih.cons y).trans (List.Perm.swap x y ys)

theorem sortLe_perm {α : Type} (le : α → α → Bool) (l : List α) :
    List.Perm (sortLe le l) l := by
  induction l with
  | nil => exact List.Perm.refl _
  | cons x xs ih => exact (insertLe_perm le x (sortLe le xs)).trans (ih.cons x)

theorem sortLe_length {α : Type} (le : α → α → Bool) (l : List α) :
    (sortLe le l).length = l.length :=
  (sortLe_perm le l).length_eq

theorem insertLe_pairwise {α : Type} (le : α → α → Bool)
    (htot : ∀ a b, le a b = false → le b a = true)
    (htrans : ∀ a b c, le a b = true → le b c = true → le a c = true)
    (x : α) (l : List α) (hl : l.Pairwise (fun a b => le a b = true)) :
    (insertLe le x l).Pairwise (fun a b => le a b = true) := by
  induction l with
  | nil => simp [insertLe]
  | cons y ys ih =>
    rcases List.pairwise_cons.mp hl with ⟨hy, hys⟩
    unfold insertLe
    cases h : le x y with
    | true =>
      refine List.pairwise_cons.mpr ⟨?_, hl⟩
      intro b hb
      rcases List.mem_cons.mp hb with hb | hb
      · subst hb; exact h
      · exact htrans x y b h (hy b hb)
    | false =>
      simp only [Bool.false_eq_true, if_false]
      refine List.pairwise_cons.mpr ⟨?_, ih hys⟩
      intro b hb
      rcases List.mem_cons.mp ((insertLe_perm le x ys).mem_iff.mp hb) with hb | hb
      · rw [hb]; exact htot x y h
      · exact hy b hb

theorem sortLe_pairwise {α : Type} (le : α → α → Bool)
    (htot : ∀ a b, le a b = false → le b a = true)
    (htrans : ∀ a b c, le a b = true → le b c = true → le a c = true)
    (l : List α) : (sortLe le l).Pairwise (fun a b => le a b = true) := by
  induction l with
  | nil => simp [sortLe]
  | cons x xs ih => exact insertLe_pairwise le htot htrans x (sortLe le xs) ih

/-- Integer sorting: the pairwise order of the result. -/
theorem sortInt_sorted (l : List Int) :
    (sortLe (fun a b => a ≤ b) l).Pairwise (· ≤ ·) := by
  have h := sortLe_pairwise (fun a b : Int => a ≤ b)
    (fun a b hab => by simpa using Int.le_of_lt (by simpa using hab))
    (fun a b c hab hbc => by simp only [decide_eq_true_eq] at *; omega) l
  exact h.imp (fun hab => by simpa using hab)

/-- Sorting an integer list is a function of its multiset of elements. -/
theorem sortInt_eq_of_perm {l₁ l₂ : List Int} (h : List.Perm l₁ l₂) :
    sortLe (fun a b => a ≤ b) l₁ = sortLe (fun a b => a ≤ b) l₂ :=
  List.eq_of_perm_of_sorted
    ((sortLe_perm _ l₁).trans (h.trans (sortLe_perm _ l₂).symm))
    (sortInt_sorted l₁) (sortInt_sorted l₂)

/-- Splitting a float sum by a predicate. -/
theorem pf_sum_filter_add (l : List PFloat) (p : PFloat → Bool) :
    (l.filter p).sum + (l.filter (fun x => !p x)).sum = l.sum := by
  induction l with
  | nil => simp
  | cons a l ih =>
    cases h : p a with
    | true =>
      simp only [List.filter_cons, h, if_true, Bool.not_true, Bool.false_eq_true,
        if_false, List.sum_cons]
      rw [add_assoc, ih]
    | false =>
      simp only [List.filter_cons, h, Bool.false_eq_true, if_false, Bool.not_false,
        if_true, List.sum_cons]
      rw [add_left_comm, ih]

/-- Mapped version of the filter split: summing `f` over a predicate
partition of a list. -/
theorem pf_sum_filter_map_add {α : Type} (l : List α) (q : α → Bool) (f : α → PFloat) :
    ((l.filter q).map f).sum + ((l.filter (fun x => !q x)).map f).sum = (l.map f).sum := by
  induction l with
  | nil => simp
  | cons a l ih =>
    cases h : q a with
    | true =>
      simp only [List.filter_cons, h, if_true, Bool.not_true, Bool.false_eq_true,
        if_false, List.map_cons, List.sum_cons]
      rw [add_assoc, ih]
    | false =>
      simp only [List.filter_cons, h, Bool.false_eq_true, if_false, Bool.not_false,
        if_true, List.map_cons, List.sum_cons]
      rw [add_left_comm, ih]

/-- Rows of a different key survive the removal of key `k`. -/
theorem filter_key_of_ne {k j : Int} (hne : j ≠ k) (l : List (Int × PFloat)) :
    (l.filter (fun p => !(p.1 == k))).filter (fun p => p.1 == j)
      = l.filter (fun p => p.1 == j) := by
  induction l with
  | nil => rfl
  | cons a l ih =>
    by_cases ha : a.1 = k
    · have h1 : (a.1 == k) = true := by simp [ha]
      have h2 : (a.1 == j) = false := by simp [ha]; exact fun hkj => hne hkj.symm
      simp [List.filter_cons, h1, h2, ih]
    · have h1 : (a.1 == k) = false := by simp [ha]
      simp [List.filter_cons, h1, ih]

/-- Sum of the per-group sums over a duplicate-free list of keys covering
every row equals the total sum — the grouping identity behind
`groupby(...)["Revenue"].sum()`. -/
theorem sum_groups (keys : List Int) (l : List (Int × PFloat))
    (hnd : keys.Nodup) (hcov : ∀ p ∈ l, p.1 ∈ keys) :
    (keys.map (fun j => ((l.filter (fun p => p.1 == j)).map Prod.snd).sum)).sum
      = (l.map Prod.snd).sum := by
  induction keys generalizing l with
  | nil =>
    have hl : l = [] := by
      cases l with
      | nil => rfl
      | cons a l => exact absurd (hcov a (List.mem_cons_self a l)) (List.not_mem_nil _)
    subst hl; simp
  | cons k ks ih =>
    rcases List.nodup_cons.mp hnd with ⟨hk, hnd2⟩
    have hcov2 : ∀ p ∈ l.filter (fun p => !(p.1 == k)), p.1 ∈ ks := by
      intro p hp
      rcases List.mem_filter.mp hp with ⟨hpl, hpk⟩
      rcases List.mem_cons.mp (hcov p hpl) with h1 | h1
      · exact absurd h1 (by simpa using hpk)
      · exact h1
    have hmap : ks.map (fun j => ((l.filter (fun p => p.1 == j)).map Prod.snd).sum)
        = ks.map (fun j =>
            (((l.filter (fun p => !(p.1 == k))).filter (fun p => p.1 == j)).map Prod.snd).sum) := by
      apply List.map_congr_left
      intro j hj
      have hne : j ≠ k := fun hjk => hk (hjk ▸ hj)
      rw [filter_key_of_ne hne l]
    rw [List.map_cons, List.sum_cons, hmap, ih _ hnd2 hcov2, pf_sum_filter_map_add]

/-- With every timestamp parsed, the week-keyed projection keeps the whole
revenue column (list form). -/
theorem weekKeyed_snd_aux (l : List CanonRow)
    (h : ∀ r ∈ l, r.invoiceDate.isSome = true) :
    (l.filterMap (fun r => r.invoiceDate.map (fun d => (weekStart d, r.revenue)))).map Prod.snd
      = l.map (fun r => r.revenue) := by
  induction l with
  | nil => rfl
  | cons r l ih =>
    have hr := h r (List.mem_cons_self r l)
    cases hd : r.invoiceDate with
    | none => rw [hd] at hr; exact absurd hr (by simp)
    | some d =>
      simp only [List.filterMap_cons, hd, Option.map, List.map_cons]
      exact congrArg (List.cons r.revenue) (ih (fun x hx => h x (List.mem_cons_of_mem r hx)))

/-- With every timestamp parsed, the week-keyed projection keeps the whole
revenue column. -/
theorem weekKeyed_map_snd (t : CanonTable)
    (h : ∀ r ∈ t.rows, r.invoiceDate.isSome = true) :
    (weekKeyed t).map Prod.snd = t.rows.map (fun r => r.revenue) :=
  weekKeyed_snd_aux t.rows h

/-- With no NaN revenue in a keyed list, the NaN-skipping group sum is the
plain group sum. -/
theorem weekSum_eq (keyed : List (Int × PFloat))
    (h : ∀ p ∈ keyed, (Prod.snd p).isNa = false) (k : Int) :
    weekSum keyed k = ((keyed.filter (fun p => p.1 == k)).map Prod.snd).sum := by
  unfold weekSum
  congr 1
  apply List.filter_eq_self.mpr
  intro x hx
  rcases List.mem_map.mp hx with ⟨p, hp, hpx⟩
  rw [← hpx]
  simp [h p (List.mem_of_mem_filter hp)]

/-- Characterisation of the week key: `weekStart d = k` exactly when `k` is
a Monday (Monday-based weekday `(k + 3) % 7` is `0`) and `d` lies in the
seven days starting at `k`. -/
theorem weekStart_eq_iff (d k : Int) :
    weekStart d = k ↔ ((k + 3) % 7 = 0 ∧ k ≤ d ∧ d < k + 7) := by
  unfold weekStart
  omega

theorem map_date_mk (keys : List Int) (f : Int → PFloat) :
    (keys.map (fun k => ({ date := k, revenue := f k } : WeeklyPoint))).map (fun p => p.date)
      = keys := by
  induction keys with
  | nil => rfl
  | cons k ks ih => simp only [List.map_cons, ih]

theorem map_revenue_mk (keys : List Int) (f : Int → PFloat) :
    (keys.map (fun k => ({ date := k, revenue := f k } : WeeklyPoint))).map (fun p => p.revenue)
      = keys.map f := by
  induction keys with
  | nil => rfl
  | cons k ks ih => simp only [List.map_cons, ih]

/-- The dates of the weekly aggregation are the sorted distinct week keys. -/
theorem aggregate_dates (t : CanonTable) :
    (aggregate_weekly_revenue t).map (fun p => p.date)
      = sortLe (fun a b => a ≤ b) ((weekKeyed t).map Prod.fst).dedup := by
  unfold aggregate_weekly_revenue
  exact map_date_mk _ _

/-- The revenues of the weekly aggregation are the group sums of the sorted
distinct week keys. -/
theorem aggregate_revenues (t : CanonTable) :
    (aggregate_weekly_revenue t).map (fun p => p.revenue)
      = (sortLe (fun a b => a ≤ b) ((weekKeyed t).map Prod.fst).dedup).map
          (weekSum (weekKeyed t)) := by
  unfold aggregate_weekly_revenue
  exact map_revenue_mk _ _

/-- Under the canonical-table invariant the NaN filter on the revenue
column is the identity. -/
theorem revs_filter_eq (t : CanonTable) (h : IsCanonical t) :
    (t.rows.map (fun r => r.revenue)).filter (fun x => !x.isNa)
      = t.rows.map (fun r => r.revenue) := by
  apply List.filter_eq_self.mpr
  intro x hx
  rcases List.mem_map.mp hx with ⟨r, hr, hrx⟩
  rw [← hrx]
  simp [(h r hr).2.2.2.2]

/-- Field values of a successfully computed KPI set, read off from the
match structure of `compute_core_kpis`. -/
theorem compute_core_kpis_ok (t : CanonTable) (k : KPISet)
    (h : compute_core_kpis t = Except.ok k) :
    k.total_revenue = ((t.rows.map (fun r => r.revenue)).filter (fun x => !x.isNa)).sum ∧
    k.num_transactions = ((t.rows.map (fun r => r.revenue)).filter (fun x => !x.isNa)).length ∧
    k.avg_order_value = (if k.num_transactions = 0 then PFloat.val 0
        else k.total_revenue.divNat k.num_transactions) ∧
    (t.hasCountry = false → k.top_country = none ∧ k.top_country_revenue = none) ∧
    (t.hasDescription = false → k.top_product = none ∧ k.top_product_revenue = none) ∧
    (t.hasCustomerID = false → k.unique_customers = none) ∧
    (t.hasCustomerID = true →
      k.unique_customers = some (t.rows.filterMap (fun r => r.customerID)).dedup.length) := by
  unfold compute_core_kpis at h
  cases hc : optionalTopBlock t.hasCountry (fun r => r.country) t.rows with
  | error m => rw [hc] at h; exact absurd h (by simp)
  | ok countryTop =>
    rw [hc] at h
    cases hd : optionalTopBlock t.hasDescription (fun r => r.description) t.rows with
    | error m => rw [hd] at h; exact absurd h (by simp)
    | ok productTop =>
      rw [hd] at h
      simp only [Except.ok.injEq] at h
      subst h
      refine ⟨rfl, rfl, rfl, ?_, ?_, ?_, ?_⟩
      · intro hfalse
        rw [hfalse] at hc
        simp only [optionalTopBlock, Bool.false_eq_true, if_false, Except.ok.injEq] at hc
        subst hc
        exact ⟨rfl, rfl⟩
      · intro hfalse
        rw [hfalse] at hd
        simp only [optionalTopBlock, Bool.false_eq_true, if_false, Except.ok.injEq] at hd
        subst hd
        exact ⟨rfl, rfl⟩
      · intro hfalse; simp [hfalse]
      · intro htrue; simp [htrue]

/-- C1 (amended): every raw input accepted by the cleaner yields rows with
a parsed (non-null) invoice timestamp, non-NaN numeric quantity and unit
price, and a non-NaN revenue equal to quantity × unit price; rows failing
any of these are dropped, never repaired.  (The original claim also
required revenue to be finite; the code only filters `notna`, so a row
with infinite revenue is retained — see the counterexample.) -/
theorem C1_cleaner_row_invariant (raw : RawTable) (t : CanonTable)
    (h : load_transactions raw = Except.ok t) : IsCanonical t := by
  unfold load_transactions at h
  split at h
  · exact absurd h (by simp)
  · split at h
    · exact absurd h (by simp)
    · simp only [Except.ok.injEq] at h
      subst h
      intro r hr
      rcases List.mem_filterMap.mp hr with ⟨row, hrow, hclean⟩
      unfold cleanRow at hclean
      split at hclean
      · exact absurd hclean (by simp)
      · split at hclean
        · exact absurd hclean (by simp)
        · split at hclean
          · exact absurd hclean (by simp)
          · rename_i d hdate hqp hrev
            simp only [Bool.or_eq_true, not_or, Bool.not_eq_true] at hqp
            simp only [Bool.not_eq_true] at hrev
            simp only [Option.some.injEq] at hclean
            subst hclean
            exact ⟨rfl, hqp.1, hqp.2, rfl, hrev⟩

/-- C1 counterexample to the claim as stated: the cleaner accepts
`rawInfQty` and returns a table whose single row has revenue `inf`, which
is not finite — a non-finite revenue is not dropped. -/
theorem C1_counterexample :
    (load_transactions rawInfQty).map
        (fun t => t.rows.all (fun r => r.revenue.isFinite)) = Except.ok false := by
  decide

/-- C1 witness: the invariant holds on the table cleaned from a concrete
upload (one valid row, one row with an unparseable date). -/
theorem C1_witness :
    IsCanonical
      { hasCountry := true, hasCustomerID := false, hasDescription := false,
        rows := [{ invoiceDate := some 19723, quantity := PFloat.val 3,
                   unitPrice := PFloat.val (5/2), revenue := PFloat.val (15/2),
                   country := some "France", customerID := none, description := none }] } :=
  C1_cleaner_row_invariant rawValid _ (by decide)

/-- C2: an upload missing any required column makes the cleaner fail with
an error whose message names a missing required column, and the pipeline
then returns that error — no aggregation output is produced. -/
theorem C2_missing_required_column (raw : RawTable) (M : IForestModel)
    (env : Env) (c : ℚ)
    (hmiss : ∃ col ∈ [INVOICE_DATE_COL, QUANTITY_COL, UNIT_PRICE_COL],
        raw.columns.contains col = false) :
    ∃ e : LoadErr, load_transactions raw = Except.error e ∧
      (∃ col ∈ [INVOICE_DATE_COL, QUANTITY_COL, UNIT_PRICE_COL],
          raw.columns.contains col = false ∧ e.mentions col = true) ∧
      run_pipeline M env raw c = Except.error e.message := by
  rcases hmiss with ⟨col, hcolmem, hcol⟩
  by_cases hI : raw.columns.contains INVOICE_DATE_COL = true
  · have hcolQU : col ∈ [QUANTITY_COL, UNIT_PRICE_COL] := by
      rcases List.mem_cons.mp hcolmem with h1 | h1
      · rw [h1] at hcol; rw [hcol] at hI; exact absurd hI (by simp)
      · exact h1
    have hmem : col ∈ missingNumericCols raw := by
      unfold missingNumericCols
      refine List.mem_filter.mpr ⟨hcolQU, ?_⟩
      simpa using hcol
    have hne : missingNumericCols raw ≠ [] := by
      intro h0; rw [h0] at hmem; exact List.not_mem_nil col hmem
    have hload : load_transactions raw
        = Except.error (.keyError (missingNumericCols raw)) := by
      unfold load_transactions
      rw [if_neg (by simpa using hI), if_pos hne]
    refine ⟨.keyError (missingNumericCols raw), hload, ⟨col, hcolmem, hcol, ?_⟩, ?_⟩
    · simp only [LoadErr.mentions]
      exact List.elem_eq_true_of_mem hmem
    · unfold run_pipeline
      rw [hload]
  · have hIf : raw.columns.contains INVOICE_DATE_COL = false := by
      cases h2 : raw.columns.contains INVOICE_DATE_COL
      · rfl
      · exact absurd h2 hI
    have hload : load_transactions raw
        = Except.error (.valueError INVOICE_DATE_COL) := by
      unfold load_transactions
      rw [if_pos (by simpa using hIf)]
    refine ⟨.valueError INVOICE_DATE_COL, hload,
      ⟨INVOICE_DATE_COL, List.mem_cons_self _ _, hIf, by simp [LoadErr.mentions]⟩, ?_⟩
    unfold run_pipeline
    rw [hload]

/-- C2 witness: dropping `Quantity` from a concrete upload produces the
error and no pipeline output. -/
theorem C2_witness :
    rawNoQuantity.columns.contains QUANTITY_COL = false ∧
    (∃ e : LoadErr, load_transactions rawNoQuantity = Except.error e ∧
      (∃ col ∈ [INVOICE_DATE_COL, QUANTITY_COL, UNIT_PRICE_COL],
          rawNoQuantity.columns.contains col = false ∧ e.mentions col = true) ∧
      run_pipeline trivialForest env0 rawNoQuantity (1/100) = Except.error e.message) :=
  ⟨by decide,
   C2_missing_required_column rawNoQuantity trivialForest env0 (1/100)
     ⟨QUANTITY_COL, by decide, by decide⟩⟩

/-- C6: the full pipeline is a pure function of the upload and the
contamination rate — the ambient environment (wall clock, OS entropy) is
never consulted, because the isolation forest is seeded with the constant
`42`; hence two runs on identical input under any two environments return
equal summaries. -/
theorem C6_pipeline_reproducible (M : IForestModel) (env1 env2 : Env)
    (raw : RawTable) (c : ℚ) :
    run_pipeline M env1 raw c = run_pipeline M env2 raw c := rfl

/-- C7 (amended): whenever the KPI computer returns a KPI set, every KPI
whose optional source column is absent is the explicit `None` marker (for
top country, top country revenue, top product, top product revenue and
unique customers), and the remaining KPIs are computed by their formulas.
(The original universal claim fails because the computer does not return at
all — it raises an `IndexError` — on tables where a *present* optional
grouping column has no groupable value, e.g. the empty table of the
counterexample.) -/
theorem C7_absent_optional_markers (t : CanonTable) (k : KPISet)
    (h : compute_core_kpis t = Except.ok k) :
    (t.hasCountry = false → k.top_country = none ∧ k.top_country_revenue = none) ∧
    (t.hasDescription = false → k.top_product = none ∧ k.top_product_revenue = none) ∧
    (t.hasCustomerID = false → k.unique_customers = none) ∧
    k.total_revenue = ((t.rows.map (fun r => r.revenue)).filter (fun x => !x.isNa)).sum ∧
    k.num_transactions = ((t.rows.map (fun r => r.revenue)).filter (fun x => !x.isNa)).length ∧
    k.avg_order_value = (if k.num_transactions = 0 then PFloat.val 0
        else k.total_revenue.divNat k.num_transactions) ∧
    (t.hasCustomerID = true →
      k.unique_customers = some (t.rows.filterMap (fun r => r.customerID)).dedup.length) := by
  obtain ⟨h1, h2, h3, h4, h5, h6, h7⟩ := compute_core_kpis_ok t k h
  exact ⟨h4, h5, h6, h1, h2, h3, h7⟩

/-- C7 counterexample to the claim as stated: on a canonical table missing
the `Country` column (but carrying a `Description` column with no rows) the
KPI computer does not mark the country KPIs unavailable and compute the
rest — it raises an `IndexError` and returns nothing. -/
theorem C7_counterexample :
    ({ hasCountry := false, hasCustomerID := false, hasDescription := true,
       rows := [] } : CanonTable).hasCountry = false ∧
    compute_core_kpis
        { hasCountry := false, hasCustomerID := false, hasDescription := true, rows := [] }
      = Except.error "IndexError: index 0 is out of bounds for axis 0 with size 0" := by
  decide

/-- C7 witness: on a concrete table without any optional column the KPI
set carries the `None` markers and the computed totals. -/
theorem C7_witness :
    (tOneRow.hasCountry = false → kOneRow.top_country = none ∧
        kOneRow.top_country_revenue = none) ∧
    (tOneRow.hasDescription = false → kOneRow.top_product = none ∧
        kOneRow.top_product_revenue = none) ∧
    (tOneRow.hasCustomerID = false → kOneRow.unique_customers = none) ∧
    kOneRow.total_revenue
      = ((tOneRow.rows.map (fun r => r.revenue)).filter (fun x => !x.isNa)).sum ∧
    kOneRow.num_transactions
      = ((tOneRow.rows.map (fun r => r.revenue)).filter (fun x => !x.isNa)).length ∧
    kOneRow.avg_order_value = (if kOneRow.num_transactions = 0 then PFloat.val 0
        else kOneRow.total_revenue.divNat kOneRow.num_transactions) ∧
    (tOneRow.hasCustomerID = true →
      kOneRow.unique_customers
        = some (tOneRow.rows.filterMap (fun r => r.customerID)).dedup.length) :=
  C7_absent_optional_markers tOneRow kOneRow (by decide)

/-- C8 (amended): whenever the KPI computer returns a KPI set for a
canonical table, total revenue is the sum of the revenue column,
transaction count is the row count, and average order value is total
revenue divided by the count when positive and exactly `0` when the count
is zero; no division by zero is ever performed.  (The original universal
claim fails because on some canonical tables — e.g. the empty table with a
`Country` column, see the counterexample — the computer raises an
`IndexError` in the top-category block and returns nothing.) -/
theorem C8_totals_count_avg (t : CanonTable) (k : KPISet)
    (hcanon : IsCanonical t) (h : compute_core_kpis t = Except.ok k) :
    k.total_revenue = (t.rows.map (fun r => r.revenue)).sum ∧
    k.num_transactions = t.rows.length ∧
    k.avg_order_value = (if t.rows.length = 0 then PFloat.val 0
        else k.total_revenue.divNat t.rows.length) := by
  obtain ⟨h1, h2, h3, _⟩ := compute_core_kpis_ok t k h
  rw [revs_filter_eq t hcanon] at h1 h2
  rw [List.length_map] at h2
  refine ⟨h1, h2, ?_⟩
  rw [h3, h2]

/-- C8 counterexample to the claim as stated: the empty canonical table
with a `Country` column makes the KPI computer raise instead of returning
the KPI set. -/
theorem C8_counterexample :
    IsCanonical { hasCountry := true, hasCustomerID := false, hasDescription := false,
                  rows := [] } ∧
    compute_core_kpis
        { hasCountry := true, hasCustomerID := false, hasDescription := false, rows := [] }
      = Except.error "IndexError: index 0 is out of bounds for axis 0 with size 0" := by
  decide

/-- C8 witness: the totals of the KPI set computed from a concrete
one-row table. -/
theorem C8_witness :
    kOneRow.total_revenue = (tOneRow.rows.map (fun r => r.revenue)).sum ∧
    kOneRow.num_transactions = tOneRow.rows.length ∧
    kOneRow.avg_order_value = (if tOneRow.rows.length = 0 then PFloat.val 0
        else kOneRow.total_revenue.divNat tOneRow.rows.length) :=
  C8_totals_count_avg tOneRow kOneRow (by decide) (by decide)

/-- C10: a canonical table whose `Country` column is present but whose top
country sums to zero revenue gets `top_country_revenue = None` — the very
marker used when the column is absent — because of the Python truthiness
test `float(top_country_revenue) if top_country_revenue else None`; the
two situations are indistinguishable in that field. -/
theorem C10_zero_top_revenue_unavailable :
    tZeroRevenue.hasCountry = true ∧
    compute_core_kpis tZeroRevenue = Except.ok kZeroRevenue ∧
    kZeroRevenue.top_country = some "United Kingdom" ∧
    kZeroRevenue.top_country_revenue = none ∧
    tZeroRevenueNoCountry.hasCountry = false ∧
    compute_core_kpis tZeroRevenueNoCountry = Except.ok kZeroRevenueNoCountry ∧
    kZeroRevenueNoCountry.top_country_revenue = none := by
  decide

/-- C3: for canonical tables (all rows carrying parsed timestamps and
non-NaN revenues), the sum of the weekly revenue points equals the sum of
the revenue column, which is also the total revenue of any returned KPI
set. -/
theorem C3_weekly_sum_equals_total (t : CanonTable) (k : KPISet)
    (hcanon : IsCanonical t) (hk : compute_core_kpis t = Except.ok k) :
    ((aggregate_weekly_revenue t).map (fun p => p.revenue)).sum
        = (t.rows.map (fun r => r.revenue)).sum ∧
    k.total_revenue = (t.rows.map (fun r => r.revenue)).sum := by
  have hdates : ∀ r ∈ t.rows, r.invoiceDate.isSome = true := fun r hr => (hcanon r hr).1
  have hnoNa : ∀ p ∈ weekKeyed t, (Prod.snd p).isNa = false := by
    intro p hp
    unfold weekKeyed at hp
    rcases List.mem_filterMap.mp hp with ⟨r, hr, hopt⟩
    cases hd : r.invoiceDate with
    | none => rw [hd] at hopt; exact absurd hopt (by simp)
    | some d =>
      rw [hd] at hopt
      simp only [Option.map, Option.some.injEq] at hopt
      rw [← hopt]
      exact (hcanon r hr).2.2.2.2
  have hw : ((aggregate_weekly_revenue t).map (fun p => p.revenue)).sum
      = ((weekKeyed t).map Prod.snd).sum := by
    rw [aggregate_revenues]
    rw [List.map_congr_left (fun j _ => weekSum_eq (weekKeyed t) hnoNa j)]
    apply sum_groups
    · exact ((sortLe_perm (fun a b => a ≤ b)
        ((weekKeyed t).map Prod.fst).dedup).nodup_iff).mpr (List.nodup_dedup _)
    · intro p hp
      exact (sortLe_perm _ _).mem_iff.mpr
        (List.mem_dedup.mpr (List.mem_map.mpr ⟨p, hp, rfl⟩))
  constructor
  · rw [hw, weekKeyed_map_snd t hdates]
  · obtain ⟨h1, _⟩ := compute_core_kpis_ok t k hk
    rw [h1, revs_filter_eq t hcanon]

/-- C3 witness: both equalities hold on a concrete one-row table. -/
theorem C3_witness :
    ((aggregate_weekly_revenue tOneRow).map (fun p => p.revenue)).sum
        = (tOneRow.rows.map (fun r => r.revenue)).sum ∧
    kOneRow.total_revenue = (tOneRow.rows.map (fun r => r.revenue)).sum :=
  C3_weekly_sum_equals_total tOneRow kOneRow (by decide) (by decide)

theorem pairwise_lt_of_le_nodup (l : List Int)
    (hle : l.Pairwise (· ≤ ·)) (hnd : l.Nodup) : l.Pairwise (· < ·) := by
  induction l with
  | nil => exact List.Pairwise.nil
  | cons a l ih =>
    rcases List.pairwise_cons.mp hle with ⟨ha, hle2⟩
    rcases List.nodup_cons.mp hnd with ⟨hna, hnd2⟩
    refine List.pairwise_cons.mpr ⟨?_, ih hle2 hnd2⟩
    intro b hb
    exact lt_of_le_of_ne (ha b hb) (fun he => hna (by rw [he]; exact hb))

/-- C4: the weekly aggregation has pairwise-distinct week-start dates in
strictly ascending order; a date appears exactly when it is a Monday whose
week contains at least one transaction (so no empty week is synthesised);
and the output is invariant under any permutation of the table rows. -/
theorem C4_weekly_points_one_per_week (t : CanonTable) :
    ((aggregate_weekly_revenue t).map (fun p => p.date)).Nodup ∧
    ((aggregate_weekly_revenue t).map (fun p => p.date)).Pairwise (· < ·) ∧
    (∀ kk : Int, kk ∈ (aggregate_weekly_revenue t).map (fun p => p.date) ↔
      ((kk + 3) % 7 = 0 ∧
        ∃ r ∈ t.rows, ∃ d : Int, r.invoiceDate = some d ∧ kk ≤ d ∧ d < kk + 7)) ∧
    (∀ t2 : CanonTable, List.Perm t.rows t2.rows →
      aggregate_weekly_revenue t = aggregate_weekly_revenue t2) := by
  have hnodup : ((aggregate_weekly_revenue t).map (fun p => p.date)).Nodup := by
    rw [aggregate_dates]
    exact ((sortLe_perm _ _).nodup_iff).mpr (List.nodup_dedup _)
  have hsorted : ((aggregate_weekly_revenue t).map (fun p => p.date)).Pairwise (· ≤ ·) := by
    rw [aggregate_dates]
    exact sortInt_sorted _
  refine ⟨hnodup, pairwise_lt_of_le_nodup _ hsorted hnodup, ?_, ?_⟩
  · intro kk
    rw [aggregate_dates, (sortLe_perm _ _).mem_iff, List.mem_dedup]
    constructor
    · intro hk2
      rcases List.mem_map.mp hk2 with ⟨p, hp, hpk⟩
      unfold weekKeyed at hp
      rcases List.mem_filterMap.mp hp with ⟨r, hr, hopt⟩
      cases hd : r.invoiceDate with
      | none => rw [hd] at hopt; exact absurd hopt (by simp)
      | some d =>
        rw [hd] at hopt
        simp only [Option.map, Option.some.injEq] at hopt
        have hws : weekStart d = kk := by rw [← hpk, ← hopt]
        rcases (weekStart_eq_iff d kk).mp hws with ⟨hmon, hlo, hhi⟩
        exact ⟨hmon, r, hr, d, hd, hlo, hhi⟩
    · rintro ⟨hmon, r, hr, d, hd, hlo, hhi⟩
      have hws : weekStart d = kk := (weekStart_eq_iff d kk).mpr ⟨hmon, hlo, hhi⟩
      apply List.mem_map.mpr
      refine ⟨(weekStart d, r.revenue), ?_, hws⟩
      unfold weekKeyed
      exact List.mem_filterMap.mpr ⟨r, hr, by rw [hd]; rfl⟩
  · intro t2 hperm
    have hkeyed : List.Perm (weekKeyed t) (weekKeyed t2) := hperm.filterMap _
    have hkeys : sortLe (fun a b => a ≤ b) ((weekKeyed t).map Prod.fst).dedup
        = sortLe (fun a b => a ≤ b) ((weekKeyed t2).map Prod.fst).dedup :=
      sortInt_eq_of_perm ((hkeyed.map Prod.fst).dedup)
    unfold aggregate_weekly_revenue
    rw [hkeys]
    apply List.map_congr_left
    intro j _
    have hsum : weekSum (weekKeyed t) j = weekSum (weekKeyed t2) j := by
      unfold weekSum
      exact List.Perm.sum_eq (((hkeyed.filter _).map Prod.snd).filter _)
    rw [hsum]

/-- C4 witness: on a concrete two-week table the dates are distinct and
reordering the rows leaves the aggregation unchanged. -/
theorem C4_witness :
    ((aggregate_weekly_revenue tTwoRows).map (fun p => p.date)).Nodup ∧
    aggregate_weekly_revenue tTwoRows = aggregate_weekly_revenue tTwoRowsSwapped := by
  obtain ⟨h1, _, _, h4⟩ := C4_weekly_points_one_per_week tTwoRows
  exact ⟨h1, h4 tTwoRowsSwapped (by decide)⟩

/-- C5 (amended): an upload cleaning to zero rows is reported by the
application with the dedicated empty-data message — produced by the
`df.empty` check *before* the Summary Builder runs — and that outcome is
distinguishable from the exception path.  (The original claim attributed
the empty-result indication to the Summary Builder itself; the Summary
Builder in fact raises on an empty table, see the counterexample.) -/
theorem C5_empty_input_reported (M : IForestModel) (env : Env) (raw : RawTable)
    (c : ℚ) (t : CanonTable) (hload : load_transactions raw = Except.ok t)
    (hempty : t.rows = []) :
    main_run M env (some raw) c
        = MainResult.emptyData "File loaded, but no data was found or parsed." ∧
    ∀ msg : String,
      MainResult.emptyData "File loaded, but no data was found or parsed."
        ≠ MainResult.processingError msg := by
  constructor
  · simp only [main_run]
    rw [hload]
    simp [hempty]
  · intro msg h
    exact MainResult.noConfusion h

/-- C5 counterexample to the claim as stated: the Summary Builder itself,
called on the empty canonical table, does not return an empty-result
indication — the isolation-forest fit raises on zero samples. -/
theorem C5_counterexample :
    build_summary trivialForest env0
        { hasCountry := false, hasCustomerID := false, hasDescription := false, rows := [] }
        (1/100)
      = Except.error
          "ValueError: Found array with 0 sample(s) while a minimum of 1 is required" := by
  decide

/-- C5 witness: a concrete upload whose only row fails date parsing is
reported with the empty-data message. -/
theorem C5_witness :
    main_run trivialForest env0 (some rawAllJunk) (1/100)
        = MainResult.emptyData "File loaded, but no data was found or parsed." ∧
    ∀ msg : String,
      MainResult.emptyData "File loaded, but no data was found or parsed."
        ≠ MainResult.processingError msg :=
  C5_empty_input_reported trivialForest env0 rawAllJunk (1/100)
    { hasCountry := false, hasCustomerID := false, hasDescription := false, rows := [] }
    (by decide) rfl

/-- C9 (amended): on a one-point weekly series with a valid contamination
the detector returns an anomaly list without raising; on the zero-point
series the underlying fit raises (see the counterexample), so the original
"including zero points" claim fails. -/
theorem C9_detector_single_point (M : IForestModel) (env : Env)
    (weekly : List WeeklyPoint) (c : ℚ)
    (hlen : weekly.length = 1) (hc1 : 0 < c) (hc2 : c ≤ 1/2) :
    ∃ l : List AnomalyRecord,
      detect_revenue_anomalies_iforest M env weekly c = Except.ok l := by
  have hXlen : ((sortedWeekly weekly).map (fun p => p.revenue)).length = 1 := by
    rw [List.length_map]
    unfold sortedWeekly
    rw [sortLe_length, hlen]
  have hne : ¬ ((sortedWeekly weekly).map (fun p => p.revenue)).isEmpty = true := by
    intro hemp
    cases hX : (sortedWeekly weekly).map (fun p => p.revenue) with
    | nil => rw [hX] at hXlen; exact absurd hXlen (by simp)
    | cons a l => rw [hX] at hemp; exact absurd hemp (by simp)
  unfold detect_revenue_anomalies_iforest
  rw [if_neg (not_not_intro ⟨hc1, hc2⟩), if_neg hne]
  exact ⟨_, rfl⟩

/-- C9 counterexample to the claim as stated: on the empty weekly series
the detector raises the scikit-learn zero-sample error instead of
returning a list. -/
theorem C9_counterexample :
    detect_revenue_anomalies_iforest trivialForest env0 [] (1/100)
      = Except.error
          "ValueError: Found array with 0 sample(s) while a minimum of 1 is required" := by
  decide

/-- C9 witness: the detector runs without error on a concrete one-point
series at the default contamination. -/
theorem C9_witness :
    (0 : ℚ) < 1/100 ∧ (1/100 : ℚ) ≤ 1/2 ∧
    ∃ l : List AnomalyRecord,
      detect_revenue_anomalies_iforest trivialForest env0 weeklyOne (1/100)
        = Except.ok l :=
  ⟨by norm_num, by norm_num,
   C9_detector_single_point trivialForest env0 weeklyOne (1/100) rfl
     (by norm_num) (by norm_num)⟩
